import Mathlib

/-!
Verification of the `@md/cli` command-line engine (`src/mod.ts`).

Strings are modelled as lists of characters (`Str`); every function below is a
direct shallow embedding of the corresponding TypeScript function in
`src/mod.ts`.  Aborts (`console.error` + `Deno.exit(1)`) are modelled with
`Except Str`; the interactive `confirm` collaborator is passed in as a boolean
oracle and every prompt handed to it is recorded in the run result.
-/

set_option maxRecDepth 10000

namespace Cli

/-- Characters of a JavaScript string, in order. -/
abbrev Str := List Char

/-- A raw command-line token. -/
abbrev Tok := Str

/-- Conversion from a Lean string literal to the character-list model. -/
def str (s : String) : Str := s.data

/-- Boolean test that `p` is a leading segment of `s`
(JavaScript `s.startsWith(p)`). -/
def isPref : Str → Str → Bool
  | [], _ => true
  | _ :: _, [] => false
  | c :: cs, d :: ds => c == d && isPref cs ds

/-- JavaScript `String.prototype.padEnd(n)`: pad with spaces on the right up to
length `n`; longer strings are returned unchanged. -/
def padEnd (s : Str) (n : Nat) : Str := s ++ List.replicate (n - s.length) ' '

/-- Split a string at its first `=`: the part before it and, when an `=` is
present, the part after it (mirrors `indexOf("=")` plus two `substring` calls
in `parseArgs`). -/
def splitFirstEq : Str → Str × Option Str
  | [] => ([], none)
  | c :: cs =>
    if c = '=' then ([], some cs)
    else
      let p := splitFirstEq cs
      (c :: p.1, p.2)

/-- Decimal rendering of a natural number (JavaScript number interpolation). -/
def natStr (n : Nat) : Str := (Nat.repr n).data

/-- Largest length among a list of strings, starting from 0
(the `maxSizes` accumulator of `createTable`). -/
def maxLen (l : List Str) : Nat := l.foldl (fun m s => max m s.length) 0

/-- Assoc-list read, first match wins (JavaScript object property read;
keys of the modelled objects are unique). -/
def lookupAssoc {α : Type} : List (Str × α) → Str → Option α
  | [], _ => none
  | (k', v) :: rest, k => if k' = k then some v else lookupAssoc rest k

/-- Assoc-list write (JavaScript object property write): overwrite in place
when the key exists, append otherwise. -/
def setAssoc {α : Type} (k : Str) (v : α) : List (Str × α) → List (Str × α)
  | [] => [(k, v)]
  | (k', v') :: rest => if k' = k then (k, v) :: rest else (k', v') :: setAssoc k v rest

/-- The `only` constraint of a value flag: an explicit list of allowed values
or a regular expression (kept abstract as its source text plus its match
predicate). -/
inductive FlagOnly where
  | list (vals : List Str)
  | regex (source : Str) (test : Str → Bool)

/-- A flag declaration (`BooleanFlag` / `ValueFlag` in `mod.ts`). -/
inductive Flag where
  | boolean (description : Str) (short : Option Str)
  | value (description : Str) (required : Bool) (only : Option FlagOnly)

/-- A resolved flag value: booleans for boolean flags, strings for value
flags. -/
inductive FlagVal where
  | boolVal (b : Bool)
  | strVal (s : Str)
deriving DecidableEq, Repr

/-- An executable command (`Executable` in `mod.ts`); the handler itself is an
external collaborator, its invocation is recorded in the run outcome. -/
structure Exe where
  description : Str
  dangerous : Bool
  arguments : Option (List Str ⊕ List (List Str))
  flags : Option (List (Str × Flag))
  exampleText : Option Str

/-- A command-tree node: an executable leaf or a group with named children
(`Command` in `mod.ts`). -/
inductive Command where
  | exe (e : Exe)
  | group (description : Str) (children : List (Str × Command))

/-- `"command"` for executables, `"group"` for parents
(the `"run" in command` checks of `mod.ts`). -/
def commandType : Command → Str
  | .exe _ => str "command"
  | .group _ _ => str "group"

/-- The description field of either kind of node. -/
def descriptionOf : Command → Str
  | .exe e => e.description
  | .group d _ => d

/-- The shared second-sentence fragment of `parseArgs` error messages
(`errorHelpText` in `mod.ts`). -/
def errorHelpText : Str := str "Run command with \"--help\" for"

/-- Message for an undeclared long flag. -/
def unknownFlagMsg (n : Str) : Str :=
  str "Unknown flag \"" ++ n ++ str "\" specified. " ++ errorHelpText ++ str " a list of valid flags."

/-- Message for an undeclared short flag character. -/
def unknownShortMsg (c : Char) : Str :=
  str "Unknown short-flag \"" ++ [c] ++ str "\" specified. " ++ errorHelpText ++ str " a list of valid flags."

/-- Message for a value flag with no usable value token. -/
def missingValueMsg (n : Str) : Str :=
  str "Missing value for flag \"" ++ n ++ str "\""

/-- Message for a value rejected by a flag's `only` constraint. -/
def invalidValueMsg (n : Str) : Str :=
  str "Invalid value for flag \"" ++ n ++ str "\". " ++ errorHelpText ++ str " a list of valid values."

/-- Message listing every required value flag that was never supplied. -/
def missingRequiredMsg (missing : List Str) : Str :=
  str "Missing required flags: " ++ List.intercalate (str ",") missing

/-- Message for a positional-argument count matching no declared shape. -/
def invalidCountMsg (n : Nat) : Str :=
  str "Invalid argument count (" ++ natStr n ++ str "). " ++ errorHelpText ++ str " valid argument combinations."

/-- Working state of the `parseArgs` token scan: the flag results so far, the
positional arguments so far, and the required value flags still missing. -/
structure ScanState where
  resultFlags : List (Str × FlagVal)
  resultArgs : List Str
  requiredLeft : List Str
deriving DecidableEq

/-- Write one flag result (`resultFlags[name] = v`). -/
def setFlag (n : Str) (v : FlagVal) (st : ScanState) : ScanState :=
  { st with resultFlags := setAssoc n v st.resultFlags }

/-- Record a value-flag value and drop the flag from the missing-required
working set. -/
def recordValue (n v : Str) (st : ScanState) : ScanState :=
  { st with
    resultFlags := setAssoc n (.strVal v) st.resultFlags
    requiredLeft := st.requiredLeft.filter (fun m => !(m == n)) }

/-- Append one positional argument. -/
def pushArg (a : Str) (st : ScanState) : ScanState :=
  { st with resultArgs := st.resultArgs ++ [a] }

/-- Initial flag results: every declared boolean flag set to `false`
(first loop of `parseArgs`). -/
def initFlags (fs : List (Str × Flag)) : List (Str × FlagVal) :=
  fs.foldl
    (fun acc nf =>
      match nf.2 with
      | .boolean _ _ => setAssoc nf.1 (.boolVal false) acc
      | _ => acc)
    []

/-- Short-alias lookup table: alias string to boolean-flag name, later
declarations overwriting earlier ones (`shortFlagMap`). -/
def buildShortMap (fs : List (Str × Flag)) : List (Str × Str) :=
  fs.foldl
    (fun acc nf =>
      match nf.2 with
      | .boolean _ (some s) => setAssoc s nf.1 acc
      | _ => acc)
    []

/-- Names of the declared required value flags, in declaration order
(`requiredFlags` as a set with insertion order). -/
def requiredNames (fs : List (Str × Flag)) : List Str :=
  fs.filterMap
    (fun nf =>
      match nf.2 with
      | .value _ true _ => some nf.1
      | _ => none)

/-- The scan state before any token is processed. -/
def initState (fs : List (Str × Flag)) : ScanState :=
  ⟨initFlags fs, [], requiredNames fs⟩

/-- Whether a candidate value violates a flag's `only` constraint
(the guard of the `Invalid value` abort). -/
def onlyFails : Option FlagOnly → Str → Bool
  | none, _ => false
  | some (.list vals), v => !(vals.any (· == v))
  | some (.regex _ test), v => !(test v)

/-- One stacked short-flag token body: each character is an independent short
flag; `f` is skipped on dangerous commands; unknown characters abort
(inner `for (const short of shortFlags)` loop of `parseArgs`). -/
def scanShorts (d : Bool) (fs : List (Str × Flag)) : Str → ScanState → Except Str ScanState
  | [], st => .ok st
  | c :: cs, st =>
    if c = 'f' ∧ d = true then scanShorts d fs cs st
    else
      match lookupAssoc (buildShortMap fs) [c] with
      | none => .error (unknownShortMsg c)
      | some long => scanShorts d fs cs (setFlag long (.boolVal true) st)

/-- The main token scan of `parseArgs` (`for (let i = 0; ...)` loop).
A `--` token is split at its first `=`; `--force` is skipped on dangerous
commands; boolean flags are set true; value flags take the inline value or
consume the next token, aborting when that token is absent or empty
(JavaScript `!nextArg`); a single-dash token is a stack of short flags; any
other token is positional. -/
def scanTokens (d : Bool) (fs : List (Str × Flag)) (st : ScanState) :
    List Tok → Except Str ScanState
  | [] => .ok st
  | arg :: rest =>
    if isPref (str "--") arg then
      let p := splitFirstEq (arg.drop 2)
      if p.1 = str "force" ∧ d = true then scanTokens d fs st rest
      else
        match lookupAssoc fs p.1 with
        | none => .error (unknownFlagMsg p.1)
        | some (.boolean _ _) => scanTokens d fs (setFlag p.1 (.boolVal true) st) rest
        | some (.value _ _ only) =>
          match p.2 with
          | some v =>
            if onlyFails only v then .error (invalidValueMsg p.1)
            else scanTokens d fs (recordValue p.1 v st) rest
          | none =>
            match rest with
            | [] => .error (missingValueMsg p.1)
            | v :: rest2 =>
              if v = [] then .error (missingValueMsg p.1)
              else if onlyFails only v then .error (invalidValueMsg p.1)
              else scanTokens d fs (recordValue p.1 v st) rest2
    else if isPref (str "-") arg then
      match scanShorts d fs (arg.drop 1) st with
      | .error e => .error e
      | .ok st2 => scanTokens d fs st2 rest
    else scanTokens d fs (pushArg arg st) rest

/-- The positional-argument counts a command accepts (`validLengths` in
`parseArgs`): `[0]` when no shapes are declared, the single shape's length,
or each alternative's length; an empty alternatives array falls back to
`[0]` because its first element is not an array in JavaScript. -/
def validLengths : Option (List Str ⊕ List (List Str)) → List Nat
  | none => [0]
  | some (.inl l) => [l.length]
  | some (.inr []) => [0]
  | some (.inr (l :: ls)) => (l :: ls).map List.length

/-- Full `parseArgs`: scan the tokens, then abort on missing required flags,
then abort on an invalid positional-argument count, otherwise return the
positional arguments and the flag results. -/
def parseArgs (cmd : Exe) (args : List Tok) :
    Except Str (List Str × List (Str × FlagVal)) :=
  let fs := cmd.flags.getD []
  match scanTokens cmd.dangerous fs (initState fs) args with
  | .error e => .error e
  | .ok st =>
    if st.requiredLeft = [] then
      if (validLengths cmd.arguments).any (· == st.resultArgs.length) then
        .ok (st.resultArgs, st.resultFlags)
      else .error (invalidCountMsg st.resultArgs.length)
    else .error (missingRequiredMsg st.requiredLeft)

/-- The abort message of a failed path-resolution step
(`invalidCommandString` in `mod.ts`): `none` means the token list was
exhausted; root-level and nested phrasings differ. -/
def invalidCommandString (commandName : Option Str) (path : List Str) : Str :=
  if path = [] then
    let runInstruction := str "Run \"--help\" to get a list of valid commands."
    match commandName with
    | none => str "No command specified. " ++ runInstruction
    | some n => str "The command \"" ++ n ++ str "\" doesn\x27t exist. " ++ runInstruction
  else
    let pathName := List.intercalate (str " ") path
    let runInstruction :=
      str "Run \"" ++ pathName ++ str " --help\" to get a list of valid subcommands."
    match commandName with
    | none => str "No subcommand specified. " ++ runInstruction
    | some n => str "The subcommand \"" ++ n ++ str "\" doesn\x27t exist. " ++ runInstruction

/-- `createTable(3)` followed by `build("\t", " | ", ": ")` in `logHelp`:
every line is a tab, the first cell padded to the widest first cell, a
separator, the second cell padded likewise, a separator, and the unpadded
third cell (the trailing join is empty, so the last column is never padded). -/
def buildTable3 (rows : List (Str × Str × Str)) : List Str :=
  let w0 := maxLen (rows.map (·.1))
  let w1 := maxLen (rows.map (·.2.1))
  rows.map (fun r => '\t' :: (padEnd r.1 w0 ++ str " | " ++ padEnd r.2.1 w1 ++ str ": " ++ r.2.2))

/-- The accepted-shape lists displayed by help (`lists` in `logHelp`):
a single shape is wrapped; a non-empty alternatives array is used as is; an
empty alternatives array is wrapped because its first element is not a
(truthy) array in JavaScript. -/
def argListsOf : List Str ⊕ List (List Str) → List (List Str)
  | .inl l => [l]
  | .inr [] => [[]]
  | .inr (l :: ls) => l :: ls

/-- One row of the help flag table: name (required value flags get a `*`),
type column (`bool`, `string`, the quoted slash-joined allowed values, or the
regular expression's text), and the description. -/
def flagRow : Str × Flag → Str × Str × Str
  | (n, .boolean d _) => (n, str "bool", d)
  | (n, .value d req only) =>
    ( if req then n ++ ['*'] else n,
      match only with
      | none => str "string"
      | some (.list vals) => List.intercalate (str "/") (vals.map (fun v => '"' :: (v ++ ['"'])))
      | some (.regex src _) => src,
      d )

/-- The `Subcommands:` table of a group's help: one row per child, in
declaration order, holding name, kind and description. -/
def subcommandRows (children : List (Str × Command)) : List Str :=
  buildTable3 (children.map (fun nc => (nc.1, commandType nc.2, descriptionOf nc.2)))

/-- The list of lines assembled by `logHelp` before it is joined with
newlines: optional header block (only for a non-empty path), the description
block, then either the executable sections (arguments, flags, example) or the
group's subcommand table.  Several pushed strings begin with an embedded
newline character exactly as in the source. -/
def logHelpLines (command : Command) (path : List Str) : List Str :=
  let header : List Str :=
    if path = [] then []
    else
      [str "Help for " ++ commandType command ++ str " \"" ++
        List.intercalate (str "/") path ++ str "\":", []]
  let base := header ++ [str "Description:", descriptionOf command]
  match command with
  | .exe e =>
    let argSection :=
      match e.arguments with
      | none => [str "\nArguments: NONE"]
      | some al =>
        str "\nArguments:" :: (argListsOf al).map (fun l => '\t' :: List.intercalate (str " ") l)
    let flagSection :=
      match e.flags with
      | none => [str "\nFlags: NONE"]
      | some fs => str "\nFlags:" :: buildTable3 (fs.map flagRow)
    let exampleSection :=
      match e.exampleText with
      | none => []
      | some ex => [str "\nExample:", ex]
    base ++ argSection ++ flagSection ++ exampleSection
  | .group _ children =>
    base ++ (str "\nSubcommands:\n" :: subcommandRows children)

/-- The single string written by `logHelp` (its `helpText.join("\n")`). -/
def logHelp (command : Command) (path : List Str) : Str :=
  List.intercalate (str "\n") (logHelpLines command path)

/-- What a dispatched run does in the end: aborts with a message, renders a
help text, or invokes the resolved command's handler with the parsed
positional arguments and flags. -/
inductive RunOutcome where
  | aborted (msg : Str)
  | helped (text : Str)
  | ran (args : List Str) (flags : List (Str × FlagVal))
deriving DecidableEq, Repr

/-- A dispatched run's observable result: every prompt handed to the
`confirm` collaborator, in order, plus the outcome. -/
structure RunResult where
  confirmPrompts : List Str
  outcome : RunOutcome
deriving DecidableEq, Repr

/-- The fixed confirmation prompt of dangerous commands. -/
def confirmPrompt : Str := str "Are you sure you want to proceed?"

/-- Force-override detection of `runCommand`: some remaining token equals
`--force`, or some remaining token starts with `-` (one or more dashes) and
contains the character `f`. -/
def forceOverride (args : List Tok) : Bool :=
  args.any (· == str "--force") ||
    args.any (fun a => isPref (str "-") a && a.contains 'f')

/-- Outcome of handing the remaining tokens to `parseArgs` and, on success,
the handler (`command.run(...parseArgs(args, command))`). -/
def execOutcome (e : Exe) (args : List Tok) : RunOutcome :=
  match parseArgs e args with
  | .error m => .aborted m
  | .ok (a, f) => .ran a f

/-- The recursive dispatcher `runCommand`: consume the first token as a child
lookup (an exhausted list or a failed lookup aborts), recurse through groups,
render help for the resolved node in help mode, and otherwise run the
dangerous-command confirmation followed by `parseArgs` and the handler.
A group with no following token (or an empty-string one, JavaScript
`!args[0]`) renders its help in help mode. -/
def runCommand (confirm : Str → Bool) (commandMap : List (Str × Command)) :
    List Tok → List Str → Bool → RunResult
  | [], path, _ => ⟨[], .aborted (invalidCommandString none path)⟩
  | commandName :: args, path, isHelp =>
    match lookupAssoc commandMap commandName with
    | none => ⟨[], .aborted (invalidCommandString (some commandName) path)⟩
    | some (.group gd children) =>
      if isHelp = true ∧ args.headD [] = [] then
        ⟨[], .helped (logHelp (.group gd children) (path ++ [commandName]))⟩
      else runCommand confirm children args (path ++ [commandName]) isHelp
    | some (.exe e) =>
      if isHelp then ⟨[], .helped (logHelp (.exe e) (path ++ [commandName]))⟩
      else if e.dangerous then
        if forceOverride args then ⟨[], execOutcome e args⟩
        else if confirm confirmPrompt then ⟨[confirmPrompt], execOutcome e args⟩
        else ⟨[confirmPrompt], .aborted (str "Aborted")⟩
      else ⟨[], execOutcome e args⟩

/-- The `run` closure produced by `create`: detect help mode from an exact
`--help` or `-h` token anywhere, strip every `-`-led token in help mode,
render the root listing when no token is left (or the first is empty), and
dispatch otherwise. -/
def cliRun (confirm : Str → Bool) (description : Str)
    (commands : List (Str × Command)) (args : List Tok) : RunResult :=
  let isHelp := args.any (· == str "--help") || args.any (· == str "-h")
  if isHelp then
    let args2 := args.filter (fun a => !(isPref (str "-") a))
    if args2.headD [] = [] then
      ⟨[], .helped (logHelp (.group description commands) [])⟩
    else runCommand confirm commands args2 [] true
  else runCommand confirm commands args [] false

/-- Keys of a modelled JavaScript object are pairwise distinct. -/
abbrev keysNodup {α : Type} (m : List (Str × α)) : Prop := (m.map Prod.fst).Nodup

deriving instance DecidableEq for Except

lemma isPref_append (p s : Str) : isPref p (p ++ s) = true := by
  induction p with
  | nil => rfl
  | cons c cs ih => simp [isPref, ih]

lemma lookupAssoc_setAssoc {α : Type} (m : List (Str × α)) (k n : Str) (v : α) :
    lookupAssoc (setAssoc k v m) n = if k = n then some v else lookupAssoc m n := by
  induction m with
  | nil => simp [setAssoc, lookupAssoc]
  | cons h t ih =>
    obtain ⟨k', v'⟩ := h
    by_cases hk : k' = k
    · subst hk
      by_cases hn : k' = n <;> simp [setAssoc, lookupAssoc, hn]
    · have hk2 : ¬ k = k' := fun hh => hk hh.symm
      by_cases hn : k' = n
      · subst hn
        have hk3 : ¬ k = k' := hk2
        simp [setAssoc, lookupAssoc, hk, hk3]
      · simp [setAssoc, lookupAssoc, hk, hn, ih]

lemma lookupAssoc_eq_none_of_not_mem_keys {α : Type} {m : List (Str × α)} {k : Str}
    (h : k ∉ m.map Prod.fst) : lookupAssoc m k = none := by
  induction m with
  | nil => rfl
  | cons p t ih =>
    simp only [List.map_cons, List.mem_cons] at h
    push_neg at h
    have h1 : ¬ p.1 = k := fun hh => h.1 hh.symm
    obtain ⟨k', v'⟩ := p
    simpa [lookupAssoc, h1] using ih h.2

lemma lookupAssoc_of_mem_nodup {α : Type} {m : List (Str × α)} {k : Str} {a : α}
    (hnd : keysNodup m) (hm : (k, a) ∈ m) : lookupAssoc m k = some a := by
  induction m with
  | nil => cases hm
  | cons p t ih =>
    obtain ⟨k', a'⟩ := p
    simp only [keysNodup, List.map_cons, List.nodup_cons] at hnd
    rcases List.mem_cons.mp hm with h | h
    · cases h
      simp [lookupAssoc]
    · have hk : k' ≠ k := by
        intro hh
        have hmem : k ∈ t.map Prod.fst := List.mem_map.mpr ⟨(k, a), h, rfl⟩
        exact hnd.1 (hh ▸ hmem)
      simp [lookupAssoc, hk, ih hnd.2 h]

lemma splitFirstEq_no_eq {name : Str} (h : '=' ∉ name) :
    splitFirstEq name = (name, none) := by
  induction name with
  | nil => rfl
  | cons c cs ih =>
    simp only [List.mem_cons] at h
    push_neg at h
    have h1 : ¬ c = '=' := fun hh => h.1 hh.symm
    simp [splitFirstEq, h1, ih h.2]

lemma splitFirstEq_append_eq {name : Str} (v : Str) (h : '=' ∉ name) :
    splitFirstEq (name ++ '=' :: v) = (name, some v) := by
  induction name with
  | nil => simp [splitFirstEq]
  | cons c cs ih =>
    simp only [List.mem_cons] at h
    push_neg at h
    have h1 : ¬ c = '=' := fun hh => h.1 hh.symm
    simp [splitFirstEq, h1, ih h.2]

/-- Concrete fixture: a command with no arguments and no flags. -/
def basicCmd : Exe := ⟨str "This is a basic command", false, none, none, none⟩

/-- Concrete fixture: a command with one optional value flag `name`. -/
def valueCmd : Exe :=
  ⟨str "Value command", false, none,
   some [(str "name", .value (str "A value flag") false none)], none⟩

/-- Concrete fixture: a dangerous command with a boolean flag whose short
alias is `f`. -/
def dangerCmd : Exe :=
  ⟨str "Dangerous command", true, none,
   some [(str "fast", .boolean (str "Fast flag") (some (str "f")))], none⟩

/-- Concrete fixture: a two-command root map. -/
def demoMap : List (Str × Command) :=
  [(str "basic", .exe basicCmd), (str "danger", .exe dangerCmd)]

/-- C7: an exhausted token list aborts with the "no command/subcommand
specified" message and a failed child lookup aborts with the "doesn't exist"
message; both name the help invocation to run next, with root and nested
phrasings differing, and `["unknownCmd"]` at the root aborts with exactly
`The command "unknownCmd" doesn't exist. Run "--help" to get a list of valid
commands.` -/
theorem c7_resolution_errors :
    (∀ (confirm : Str → Bool) (cmap : List (Str × Command)) (path : List Str) (isHelp : Bool),
      runCommand confirm cmap [] path isHelp = ⟨[], .aborted (invalidCommandString none path)⟩)
  ∧ (∀ (confirm : Str → Bool) (cmap : List (Str × Command)) (name : Str) (args : List Tok)
        (path : List Str) (isHelp : Bool), lookupAssoc cmap name = none →
      runCommand confirm cmap (name :: args) path isHelp =
        ⟨[], .aborted (invalidCommandString (some name) path)⟩)
  ∧ invalidCommandString none [] =
      str "No command specified. Run \"--help\" to get a list of valid commands."
  ∧ invalidCommandString none [str "nest1"] =
      str "No subcommand specified. Run \"nest1 --help\" to get a list of valid subcommands."
  ∧ invalidCommandString (some (str "sub")) [str "nest1", str "nest2"] =
      str "The subcommand \"sub\" doesn\x27t exist. Run \"nest1 nest2 --help\" to get a list of valid subcommands."
  ∧ cliRun (fun _ => false) (str "An example API") demoMap [str "unknownCmd"] =
      ⟨[], .aborted (str "The command \"unknownCmd\" doesn\x27t exist. Run \"--help\" to get a list of valid commands.")⟩ := by
  refine ⟨?_, ?_, ?_, ?_, ?_, ?_⟩
  · intro confirm cmap path isHelp
    rfl
  · intro confirm cmap name args path isHelp h
    simp [runCommand, h]
  · decide
  · decide
  · decide
  · decide

/-- C7 witness: the failed-lookup branch at a concrete nested input. -/
theorem c7_resolution_errors_witness :
    runCommand (fun _ => false) demoMap [str "zzz"] [str "nest1"] false =
      ⟨[], .aborted (invalidCommandString (some (str "zzz")) [str "nest1"])⟩ :=
  c7_resolution_errors.2.1 (fun _ => false) demoMap (str "zzz") [] [str "nest1"] false (by rfl)

/-- C10: help mode is entered only on an exact `--help` or `-h` token; a token
list containing neither dispatches normally. -/
theorem c10_exact_help_tokens (confirm : Str → Bool) (d : Str)
    (cmds : List (Str × Command)) (args : List Tok)
    (h1 : str "--help" ∉ args) (h2 : str "-h" ∉ args) :
    cliRun confirm d cmds args = runCommand confirm cmds args [] false := by
  have e1 : args.any (· == str "--help") = false := by
    cases he : args.any (· == str "--help") with
    | false => rfl
    | true =>
      obtain ⟨x, hx, hbeq⟩ := List.any_eq_true.mp he
      exact absurd ((beq_iff_eq.mp hbeq) ▸ hx) h1
  have e2 : args.any (· == str "-h") = false := by
    cases he : args.any (· == str "-h") with
    | false => rfl
    | true =>
      obtain ⟨x, hx, hbeq⟩ := List.any_eq_true.mp he
      exact absurd ((beq_iff_eq.mp hbeq) ▸ hx) h2
  simp [cliRun, e1, e2]

/-- C10 witness: a stacked `-xh` group and a `--helpful` token do not trigger
help mode. -/
theorem c10_exact_help_tokens_witness :
    cliRun (fun _ => false) (str "demo") demoMap [str "--helpful", str "-xh"] =
      runCommand (fun _ => false) demoMap [str "--helpful", str "-xh"] [] false :=
  c10_exact_help_tokens (fun _ => false) (str "demo") demoMap
    [str "--helpful", str "-xh"] (by decide) (by decide)

/-- C8: when `--help` or `-h` appears anywhere, every `-`-led token is removed
before path resolution, and an executable resolved in help mode yields its
help text with no confirmation prompt and no flag/arity/handler step. -/
theorem c8_help_mode :
    (∀ (confirm : Str → Bool) (d : Str) (cmds : List (Str × Command)) (args : List Tok),
      (str "--help" ∈ args ∨ str "-h" ∈ args) →
      cliRun confirm d cmds args =
        (if (args.filter (fun a => !(isPref (str "-") a))).headD [] = [] then
          ⟨[], .helped (logHelp (.group d cmds) [])⟩
        else runCommand confirm cmds (args.filter (fun a => !(isPref (str "-") a))) [] true))
  ∧ (∀ (confirm : Str → Bool) (cmap : List (Str × Command)) (name : Str) (args : List Tok)
        (path : List Str) (e : Exe), lookupAssoc cmap name = some (.exe e) →
      runCommand confirm cmap (name :: args) path true =
        ⟨[], .helped (logHelp (.exe e) (path ++ [name]))⟩) := by
  constructor
  · intro confirm d cmds args h
    rcases h with h | h
    · have ha : args.any (· == str "--help") = true := List.any_eq_true.mpr ⟨_, h, by simp⟩
      simp [cliRun, ha]
    · have hb : args.any (· == str "-h") = true := List.any_eq_true.mpr ⟨_, h, by simp⟩
      simp [cliRun, hb]
  · intro confirm cmap name args path e h
    simp [runCommand, h]

/-- C8 witness: help mode on a concrete input filters the flag tokens and the
resolved executable renders its help. -/
theorem c8_help_mode_witness :
    cliRun (fun _ => false) (str "demo") demoMap [str "basic", str "--help"] =
      (if (([str "basic", str "--help"].filter (fun a => !(isPref (str "-") a))).headD [] = []) then
        ⟨[], .helped (logHelp (.group (str "demo") demoMap) [])⟩
      else runCommand (fun _ => false) demoMap
        ([str "basic", str "--help"].filter (fun a => !(isPref (str "-") a))) [] true)
  ∧ runCommand (fun _ => false) demoMap [str "basic"] [] true =
      ⟨[], .helped (logHelp (.exe basicCmd) [str "basic"])⟩ :=
  ⟨c8_help_mode.1 (fun _ => false) (str "demo") demoMap [str "basic", str "--help"]
      (Or.inl (by decide)),
   c8_help_mode.2 (fun _ => false) demoMap (str "basic") [] [] basicCmd (by rfl)⟩

/-- C5: after a successful scan with no missing required flag, `parseArgs`
accepts exactly the positional counts in `validLengths` and otherwise aborts
with the exact invalid-argument-count message; no declared shapes means only
zero arguments are accepted. -/
theorem c5_arity (cmd : Exe) (args : List Tok) (st : ScanState)
    (hscan : scanTokens cmd.dangerous (cmd.flags.getD []) (initState (cmd.flags.getD [])) args = .ok st)
    (hreq : st.requiredLeft = []) :
    (parseArgs cmd args =
      if (validLengths cmd.arguments).any (· == st.resultArgs.length) then
        .ok (st.resultArgs, st.resultFlags)
      else .error (invalidCountMsg st.resultArgs.length))
  ∧ validLengths none = [0]
  ∧ (∀ l, validLengths (some (.inl l)) = [l.length])
  ∧ (∀ l ls, validLengths (some (.inr (l :: ls))) = (l :: ls).map List.length)
  ∧ invalidCountMsg 1 =
      str "Invalid argument count (1). Run command with \"--help\" for valid argument combinations." := by
  refine ⟨?_, rfl, fun l => rfl, fun l ls => rfl, by decide⟩
  simp [parseArgs, hscan, hreq]

/-- C5 witness: the `basic`-with-one-argument scenario aborts with the exact
count message. -/
theorem c5_arity_witness :
    parseArgs basicCmd [str "x"] = .error (invalidCountMsg 1) := by
  have h := (c5_arity basicCmd [str "x"] ⟨[], [str "x"], []⟩ (by rfl) rfl).1
  rw [h]
  rfl

lemma scanTokens_inline_value (d : Bool) (fs : List (Str × Flag)) (st : ScanState)
    (name v : Str) (post : List Tok) (dd : Str) (rr : Bool) (oo : Option FlagOnly)
    (hlk : lookupAssoc fs name = some (.value dd rr oo))
    (heq : '=' ∉ name)
    (hforce : ¬ (name = str "force" ∧ d = true)) :
    scanTokens d fs st ((str "--" ++ (name ++ '=' :: v)) :: post) =
      (if onlyFails oo v then .error (invalidValueMsg name)
       else scanTokens d fs (recordValue name v st) post) := by
  have h1 : isPref (str "--") (str "--" ++ (name ++ '=' :: v)) = true := isPref_append _ _
  have h2 : (str "--" ++ (name ++ '=' :: v)).drop 2 = name ++ '=' :: v := rfl
  simp only [scanTokens, h1, if_true, h2, splitFirstEq_append_eq v heq]
  rw [if_neg hforce]
  simp only [hlk]

lemma scanTokens_next_value (d : Bool) (fs : List (Str × Flag)) (st : ScanState)
    (name : Str) (rest : List Tok) (dd : Str) (rr : Bool) (oo : Option FlagOnly)
    (hlk : lookupAssoc fs name = some (.value dd rr oo))
    (heq : '=' ∉ name)
    (hforce : ¬ (name = str "force" ∧ d = true)) :
    scanTokens d fs st ((str "--" ++ name) :: rest) =
      (match rest with
       | [] => .error (missingValueMsg name)
       | v :: rest2 =>
         if v = [] then .error (missingValueMsg name)
         else if onlyFails oo v then .error (invalidValueMsg name)
         else scanTokens d fs (recordValue name v st) rest2) := by
  have h1 : isPref (str "--") (str "--" ++ name) = true := isPref_append _ _
  have h2 : (str "--" ++ name).drop 2 = name := rfl
  simp only [scanTokens, h1, if_true, h2, splitFirstEq_no_eq heq]
  rw [if_neg hforce]
  simp only [hlk]

/-- C2 (amended): for a declared value flag and a NON-EMPTY value, the inline
form `--name=value` and the two-token form `--name value` produce the same
full parse result, whatever tokens follow. -/
theorem c2_inline_vs_separate (cmd : Exe) (name v : Str) (post : List Tok)
    (dd : Str) (rr : Bool) (oo : Option FlagOnly)
    (hlk : lookupAssoc (cmd.flags.getD []) name = some (.value dd rr oo))
    (hv : v ≠ [])
    (heq : '=' ∉ name)
    (hforce : ¬ (name = str "force" ∧ cmd.dangerous = true)) :
    parseArgs cmd ((str "--" ++ name ++ str "=" ++ v) :: post) =
      parseArgs cmd ((str "--" ++ name) :: v :: post) := by
  have htok : str "--" ++ name ++ str "=" ++ v = str "--" ++ (name ++ '=' :: v) := by
    simp [str]
  rw [htok]
  have ha := scanTokens_inline_value cmd.dangerous (cmd.flags.getD [])
    (initState (cmd.flags.getD [])) name v post dd rr oo hlk heq hforce
  have hb := scanTokens_next_value cmd.dangerous (cmd.flags.getD [])
    (initState (cmd.flags.getD [])) name (v :: post) dd rr oo hlk heq hforce
  simp only [parseArgs, ha, hb, if_neg hv]

/-- C2 counterexample: with the empty value the two forms differ — the inline
form resolves the flag to the empty string, the two-token form aborts with a
missing-value error (JavaScript `!nextArg` is true on `""`). -/
theorem c2_counterexample :
    parseArgs valueCmd [str "--name="] = .ok ([], [(str "name", .strVal [])])
  ∧ parseArgs valueCmd [str "--name", []] = .error (str "Missing value for flag \"name\"")
  ∧ parseArgs valueCmd [str "--name="] ≠ parseArgs valueCmd [str "--name", []] :=
  ⟨by decide, by decide, by decide⟩

/-- C2 witness: the two forms agree on a concrete non-empty value. -/
theorem c2_inline_vs_separate_witness :
    parseArgs valueCmd [str "--name=x", str "pos"] = parseArgs valueCmd [str "--name", str "x", str "pos"] := by
  have h := c2_inline_vs_separate valueCmd (str "name") (str "x") [str "pos"]
    (str "A value flag") false none (by rfl) (by decide) (by decide) (by decide)
  simpa using h

/-- C3 (amended): a long-form value flag with no inline value consumes the
immediately following token as its value (scanning then continues after it,
so the token is never reinterpreted as a positional argument or flag), and
the missing-value abort happens exactly when no token remains after the flag
token OR the next token is the empty string. -/
theorem c3_value_consumption (d : Bool) (fs : List (Str × Flag)) (st : ScanState)
    (name dd : Str) (rr : Bool) (oo : Option FlagOnly)
    (hlk : lookupAssoc fs name = some (.value dd rr oo))
    (heq : '=' ∉ name)
    (hforce : ¬ (name = str "force" ∧ d = true)) :
    scanTokens d fs st [str "--" ++ name] = .error (missingValueMsg name)
  ∧ (∀ post, scanTokens d fs st ((str "--" ++ name) :: [] :: post) = .error (missingValueMsg name))
  ∧ (∀ v post, v ≠ [] →
      scanTokens d fs st ((str "--" ++ name) :: v :: post) =
        (if onlyFails oo v then .error (invalidValueMsg name)
         else scanTokens d fs (recordValue name v st) post))
  ∧ missingValueMsg name = str "Missing value for flag \"" ++ name ++ str "\"" := by
  refine ⟨?_, ?_, ?_, rfl⟩
  · rw [scanTokens_next_value d fs st name [] dd rr oo hlk heq hforce]
  · intro post
    rw [scanTokens_next_value d fs st name ([] :: post) dd rr oo hlk heq hforce]
    rfl
  · intro v post hv
    rw [scanTokens_next_value d fs st name (v :: post) dd rr oo hlk heq hforce]
    simp [hv]

/-- C3 counterexample: the abort is not equivalent to token exhaustion — here
a token remains after the flag token (the empty string) and the parse still
aborts with the missing-value error. -/
theorem c3_counterexample :
    parseArgs valueCmd [str "--name", []] = .error (missingValueMsg (str "name"))
  ∧ [str "--name", ([] : Str)].length = 2 :=
  ⟨by decide, rfl⟩

/-- C3 witness: the consumption equation at a concrete scan state. -/
theorem c3_value_consumption_witness :
    scanTokens false [(str "name", .value (str "A value flag") false none)]
      (initState [(str "name", .value (str "A value flag") false none)])
      ((str "--" ++ str "name") :: str "--weird" :: []) =
      (if onlyFails none (str "--weird") then .error (invalidValueMsg (str "name"))
       else scanTokens false [(str "name", .value (str "A value flag") false none)]
         (recordValue (str "name") (str "--weird")
           (initState [(str "name", .value (str "A value flag") false none)])) []) :=
  (c3_value_consumption false [(str "name", .value (str "A value flag") false none)]
      (initState [(str "name", .value (str "A value flag") false none)])
      (str "name") (str "A value flag") false none (by rfl) (by decide) (by decide)).2.2.1
    (str "--weird") [] (by decide)

/-- Modelled from the spec claim's words: force override by a `--force` token
or a short-flag token (single leading dash, so not a `--` token) containing
the character `f`.  Used only to compare the claim against the code's
`forceOverride`. -/
def forceOverrideSpec (args : List Tok) : Bool :=
  args.any (· == str "--force") ||
    args.any (fun a => isPref (str "-") a && !(isPref (str "--") a) && a.contains 'f')

/-- C1 (amended): for a dangerous executable resolved outside help mode, the
confirmation collaborator is invoked with the fixed prompt iff the remaining
tokens contain neither a `--force` token nor ANY dash-led token (single or
double dash) containing the character `f`; declining aborts with "Aborted",
and confirming or a force override proceeds to flag parsing, arity
validation and the handler. -/
theorem c1_dangerous_confirm (confirm : Str → Bool) (cmap : List (Str × Command))
    (name : Str) (args : List Tok) (path : List Str) (e : Exe)
    (hlk : lookupAssoc cmap name = some (.exe e))
    (hd : e.dangerous = true) :
    ((runCommand confirm cmap (name :: args) path false).confirmPrompts =
      if forceOverride args then [] else [confirmPrompt])
  ∧ (forceOverride args = true →
      runCommand confirm cmap (name :: args) path false = ⟨[], execOutcome e args⟩)
  ∧ (forceOverride args = false → confirm confirmPrompt = true →
      runCommand confirm cmap (name :: args) path false = ⟨[confirmPrompt], execOutcome e args⟩)
  ∧ (forceOverride args = false → confirm confirmPrompt = false →
      runCommand confirm cmap (name :: args) path false = ⟨[confirmPrompt], .aborted (str "Aborted")⟩)
  ∧ confirmPrompt = str "Are you sure you want to proceed?" := by
  have hrun : runCommand confirm cmap (name :: args) path false =
      (if forceOverride args then ⟨[], execOutcome e args⟩
       else if confirm confirmPrompt then ⟨[confirmPrompt], execOutcome e args⟩
       else ⟨[confirmPrompt], .aborted (str "Aborted")⟩) := by
    simp [runCommand, hlk, hd]
  refine ⟨?_, ?_, ?_, ?_, rfl⟩ <;>
    cases hf : forceOverride args <;>
      cases hc : confirm confirmPrompt <;>
        simp [hrun, hf, hc]

/-- C1 counterexample: the remaining token `--file` is neither `--force` nor a
single-leading-dash token, so the claim predicts that `confirm` is invoked,
yet the code's scan (`startsWith("-") && includes("f")`) treats it as a force
override: no prompt is recorded and the declining oracle never aborts the run
with "Aborted". -/
theorem c1_counterexample :
    forceOverrideSpec [str "--file"] = false
  ∧ (runCommand (fun _ => false) demoMap [str "danger", str "--file"] [] false).confirmPrompts = []
  ∧ (runCommand (fun _ => false) demoMap [str "danger", str "--file"] [] false).outcome ≠
      .aborted (str "Aborted") :=
  ⟨by decide, by decide, by decide⟩

/-- C1 witness: confirm-accept, forced, and confirm-decline runs of a concrete
dangerous command. -/
theorem c1_dangerous_confirm_witness :
    runCommand (fun _ => true) demoMap [str "danger"] [] false =
      ⟨[confirmPrompt], execOutcome dangerCmd []⟩
  ∧ runCommand (fun _ => false) demoMap [str "danger", str "--force"] [] false =
      ⟨[], execOutcome dangerCmd [str "--force"]⟩
  ∧ runCommand (fun _ => false) demoMap [str "danger"] [] false =
      ⟨[confirmPrompt], .aborted (str "Aborted")⟩ :=
  ⟨(c1_dangerous_confirm (fun _ => true) demoMap (str "danger") [] [] dangerCmd
      (by rfl) rfl).2.2.1 (by decide) rfl,
   (c1_dangerous_confirm (fun _ => false) demoMap (str "danger") [str "--force"] [] dangerCmd
      (by rfl) rfl).2.1 (by decide),
   (c1_dangerous_confirm (fun _ => false) demoMap (str "danger") [] [] dangerCmd
      (by rfl) rfl).2.2.2.1 (by decide) rfl⟩

lemma initFlags_aux_lookup (n : Str) :
    ∀ (fs : List (Str × Flag)) (acc : List (Str × FlagVal)), keysNodup fs →
    lookupAssoc (fs.foldl (fun acc nf =>
        match nf.2 with
        | .boolean _ _ => setAssoc nf.1 (.boolVal false) acc
        | _ => acc) acc) n =
      (match lookupAssoc fs n with
       | some (.boolean _ _) => some (.boolVal false)
       | _ => lookupAssoc acc n) := by
  intro fs
  induction fs with
  | nil => intro acc _; rfl
  | cons hd t ih =>
    intro acc hnd
    obtain ⟨k, f⟩ := hd
    simp only [keysNodup, List.map_cons, List.nodup_cons] at hnd
    rw [List.foldl_cons, ih _ hnd.2]
    by_cases hk : k = n
    · subst hk
      have ht : lookupAssoc t k = none := lookupAssoc_eq_none_of_not_mem_keys hnd.1
      rw [ht]
      cases f with
      | boolean dd ss =>
        simp [lookupAssoc, lookupAssoc_setAssoc]
      | value dd rr oo =>
        simp [lookupAssoc]
    · have hcons : lookupAssoc ((k, f) :: t) n = lookupAssoc t n := by
        simp [lookupAssoc, hk]
      rw [hcons]
      cases f with
      | boolean dd ss =>
        have hstep : lookupAssoc (setAssoc k (FlagVal.boolVal false) acc) n = lookupAssoc acc n := by
          simp [lookupAssoc_setAssoc, hk]
        cases hl : lookupAssoc t n with
        | none => exact hstep
        | some fv =>
          cases fv with
          | boolean d2 s2 => rfl
          | value d2 r2 o2 => exact hstep
      | value dd rr oo =>
        cases hl : lookupAssoc t n with
        | none => rfl
        | some fv =>
          cases fv with
          | boolean d2 s2 => rfl
          | value d2 r2 o2 => rfl

lemma initFlags_lookup {fs : List (Str × Flag)} (hnd : keysNodup fs) (n : Str) :
    lookupAssoc (initFlags fs) n =
      (match lookupAssoc fs n with
       | some (.boolean _ _) => some (.boolVal false)
       | _ => none) := by
  have h0 := initFlags_aux_lookup n fs [] hnd
  unfold initFlags
  rw [h0]
  cases hl : lookupAssoc fs n with
  | none => rfl
  | some f => cases f <;> rfl

lemma buildShortMap_aux_mem (k v : Str) :
    ∀ (fs : List (Str × Flag)) (acc : List (Str × Str)),
    lookupAssoc (fs.foldl (fun acc nf =>
        match nf.2 with
        | .boolean _ (some s) => setAssoc s nf.1 acc
        | _ => acc) acc) k = some v →
    (∃ dd ss, (v, Flag.boolean dd ss) ∈ fs) ∨ lookupAssoc acc k = some v := by
  intro fs
  induction fs with
  | nil => intro acc h; exact Or.inr h
  | cons hd t ih =>
    intro acc h
    rw [List.foldl_cons] at h
    rcases ih _ h with h2 | h2
    · obtain ⟨dd, ss, hm⟩ := h2
      exact Or.inl ⟨dd, ss, List.mem_cons_of_mem _ hm⟩
    · obtain ⟨kk, f⟩ := hd
      cases f with
      | boolean dd ss =>
        cases ss with
        | none => exact Or.inr h2
        | some s =>
          simp only [lookupAssoc_setAssoc] at h2
          by_cases hs : s = k
          · rw [if_pos hs] at h2
            cases h2
            exact Or.inl ⟨dd, some s, List.mem_cons_self _ _⟩
          · rw [if_neg hs] at h2
            exact Or.inr h2
      | value dd rr oo => exact Or.inr h2

lemma shortMap_lookup {fs : List (Str × Flag)} {k v : Str} (hnd : keysNodup fs)
    (h : lookupAssoc (buildShortMap fs) k = some v) :
    ∃ dd ss, lookupAssoc fs v = some (.boolean dd ss) := by
  rcases buildShortMap_aux_mem k v fs [] h with h2 | h2
  · obtain ⟨dd, ss, hm⟩ := h2
    exact ⟨dd, ss, lookupAssoc_of_mem_nodup hnd hm⟩
  · cases h2

lemma requiredNames_mem {fs : List (Str × Flag)} {n : Str} (h : n ∈ requiredNames fs) :
    ∃ dd oo, (n, Flag.value dd true oo) ∈ fs := by
  simp only [requiredNames, List.mem_filterMap] at h
  obtain ⟨⟨k, f⟩, hmem, hf⟩ := h
  cases f with
  | boolean dd ss => cases hf
  | value dd rr oo =>
    cases rr with
    | false => cases hf
    | true =>
      cases hf
      exact ⟨dd, oo, hmem⟩

lemma requiredNames_lookup {fs : List (Str × Flag)} {n : Str} (hnd : keysNodup fs)
    (h : n ∈ requiredNames fs) :
    ∃ dd oo, lookupAssoc fs n = some (.value dd true oo) := by
  obtain ⟨dd, oo, hm⟩ := requiredNames_mem h
  exact ⟨dd, oo, lookupAssoc_of_mem_nodup hnd hm⟩

lemma scanShorts_state (d : Bool) (fs : List (Str × Flag)) :
    ∀ (g : Str) (st st' : ScanState), scanShorts d fs g st = .ok st' →
      st'.requiredLeft = st.requiredLeft ∧ st'.resultArgs = st.resultArgs := by
  intro g
  induction g with
  | nil =>
    intro st st' h
    cases h
    exact ⟨rfl, rfl⟩
  | cons c cs ih =>
    intro st st' h
    simp only [scanShorts] at h
    by_cases hcf : c = 'f' ∧ d = true
    · rw [if_pos hcf] at h
      exact ih _ _ h
    · rw [if_neg hcf] at h
      cases hm : lookupAssoc (buildShortMap fs) [c] with
      | none => rw [hm] at h; cases h
      | some long =>
        rw [hm] at h
        simpa [setFlag] using ih _ _ h

lemma scanShorts_true_preserved (d : Bool) (fs : List (Str × Flag)) :
    ∀ (g : Str) (st st' : ScanState) (n : Str), scanShorts d fs g st = .ok st' →
      lookupAssoc st.resultFlags n = some (.boolVal true) →
      lookupAssoc st'.resultFlags n = some (.boolVal true) := by
  intro g
  induction g with
  | nil =>
    intro st st' n h ht
    cases h
    exact ht
  | cons c cs ih =>
    intro st st' n h ht
    simp only [scanShorts] at h
    by_cases hcf : c = 'f' ∧ d = true
    · rw [if_pos hcf] at h
      exact ih _ _ _ h ht
    · rw [if_neg hcf] at h
      cases hm : lookupAssoc (buildShortMap fs) [c] with
      | none => rw [hm] at h; cases h
      | some long =>
        rw [hm] at h
        refine ih _ _ _ h ?_
        simp only [setFlag, lookupAssoc_setAssoc]
        by_cases hl : long = n
        · rw [if_pos hl]
        · rw [if_neg hl]
          exact ht

lemma scanShorts_lookup_preserved (d : Bool) (fs : List (Str × Flag)) (hnd : keysNodup fs) :
    ∀ (g : Str) (st st' : ScanState) (n dd : Str) (rr : Bool) (oo : Option FlagOnly),
      lookupAssoc fs n = some (.value dd rr oo) →
      scanShorts d fs g st = .ok st' →
      lookupAssoc st'.resultFlags n = lookupAssoc st.resultFlags n := by
  intro g
  induction g with
  | nil =>
    intro st st' n dd rr oo hv h
    cases h
    rfl
  | cons c cs ih =>
    intro st st' n dd rr oo hv h
    simp only [scanShorts] at h
    by_cases hcf : c = 'f' ∧ d = true
    · rw [if_pos hcf] at h
      exact ih _ _ _ _ _ _ hv h
    · rw [if_neg hcf] at h
      cases hm : lookupAssoc (buildShortMap fs) [c] with
      | none => rw [hm] at h; cases h
      | some long =>
        rw [hm] at h
        have hlong : long ≠ n := by
          intro hl
          obtain ⟨d2, s2, hb⟩ := shortMap_lookup hnd hm
          rw [hl, hv] at hb
          cases hb
        rw [ih _ _ _ _ _ _ hv h]
        simp [setFlag, lookupAssoc_setAssoc, hlong]

lemma scanShorts_untouched (d : Bool) (fs : List (Str × Flag)) :
    ∀ (g : Str) (st st' : ScanState) (n : Str),
      (∀ c ∈ g, ¬ lookupAssoc (buildShortMap fs) [c] = some n) →
      scanShorts d fs g st = .ok st' →
      lookupAssoc st'.resultFlags n = lookupAssoc st.resultFlags n := by
  intro g
  induction g with
  | nil =>
    intro st st' n _ h
    cases h
    rfl
  | cons c cs ih =>
    intro st st' n hn h
    simp only [scanShorts] at h
    by_cases hcf : c = 'f' ∧ d = true
    · rw [if_pos hcf] at h
      exact ih _ _ _ (fun c2 hc2 => hn c2 (List.mem_cons_of_mem _ hc2)) h
    · rw [if_neg hcf] at h
      cases hm : lookupAssoc (buildShortMap fs) [c] with
      | none => rw [hm] at h; cases h
      | some long =>
        rw [hm] at h
        have hlong : long ≠ n := by
          intro hl
          exact hn c (List.mem_cons_self _ _) (hl ▸ hm)
        rw [ih _ _ _ (fun c2 hc2 => hn c2 (List.mem_cons_of_mem _ hc2)) h]
        simp [setFlag, lookupAssoc_setAssoc, hlong]

lemma scanShorts_sets (d : Bool) (fs : List (Str × Flag)) :
    ∀ (g : Str) (st st' : ScanState) (c : Char) (n : Str),
      scanShorts d fs g st = .ok st' → c ∈ g →
      ¬(c = 'f' ∧ d = true) → lookupAssoc (buildShortMap fs) [c] = some n →
      lookupAssoc st'.resultFlags n = some (.boolVal true) := by
  intro g
  induction g with
  | nil =>
    intro st st' c n h hc
    cases hc
  | cons c2 cs ih =>
    intro st st' c n h hc hcf hmap
    simp only [scanShorts] at h
    by_cases hcf2 : c2 = 'f' ∧ d = true
    · rw [if_pos hcf2] at h
      rcases List.mem_cons.mp hc with hceq | hmem
      · exact absurd (hceq ▸ hcf2) hcf
      · exact ih _ _ _ _ h hmem hcf hmap
    · rw [if_neg hcf2] at h
      cases hm : lookupAssoc (buildShortMap fs) [c2] with
      | none => rw [hm] at h; cases h
      | some long =>
        rw [hm] at h
        rcases List.mem_cons.mp hc with hceq | hmem
        · have hln : long = n := by
            rw [hceq] at hmap
            rw [hmap] at hm
            cases hm
            rfl
          refine scanShorts_true_preserved d fs cs _ _ n h ?_
          rw [hln] at *
          simp [setFlag, lookupAssoc_setAssoc]
        · exact ih _ _ _ _ h hmem hcf hmap

lemma scanTokens_true_preserved (d : Bool) (fs : List (Str × Flag)) (name ddesc : Str) (ss : Option Str)
    (hb : lookupAssoc fs name = some (.boolean ddesc ss)) :
    ∀ (N : Nat) (st : ScanState) (args : List Tok) (st' : ScanState), args.length ≤ N →
      scanTokens d fs st args = .ok st' →
      lookupAssoc st.resultFlags name = some (.boolVal true) →
      lookupAssoc st'.resultFlags name = some (.boolVal true) := by
  intro N
  induction N with
  | zero =>
    intro st args st' hlen h ht
    have ha : args = [] := List.length_eq_zero.mp (Nat.le_zero.mp hlen)
    subst ha
    cases h
    exact ht
  | succ N ih =>
    intro st args st' hlen h ht
    cases args with
    | nil =>
      cases h
      exact ht
    | cons a rest =>
      have hr : rest.length ≤ N := by
        simp only [List.length_cons] at hlen
        omega
      simp only [scanTokens] at h
      split at h
      · split at h
        · exact ih st rest st' hr h ht
        · split at h
          · cases h
          · refine ih _ rest st' hr h ?_
            simp only [setFlag, lookupAssoc_setAssoc]
            split
            · rfl
            · exact ht
          · split at h
            · split at h
              · cases h
              · refine ih _ rest st' hr h ?_
                have hne : (splitFirstEq (List.drop 2 a)).1 ≠ name := by
                  intro he
                  simp_all
                simp only [recordValue, lookupAssoc_setAssoc, if_neg hne]
                exact ht
            · split at h
              · cases h
              · split at h
                · cases h
                · split at h
                  · cases h
                  · rename_i v rest2 hv hfail
                    have hr2 : rest2.length ≤ N := by
                      simp only [List.length_cons] at hr ⊢
                      omega
                    refine ih _ rest2 st' hr2 h ?_
                    have hne : (splitFirstEq (List.drop 2 a)).1 ≠ name := by
                      intro he
                      simp_all
                    simp only [recordValue, lookupAssoc_setAssoc, if_neg hne]
                    exact ht
      · split at h
        · split at h
          · cases h
          · rename_i st2 hshort
            exact ih st2 rest st' hr h (scanShorts_true_preserved d fs _ st st2 name hshort ht)
        · exact ih _ rest st' hr h ht

/-- Which tokens can set or overwrite the result entry of flag `name` during
the scan: a long token whose flag-name part is `name`, or a short-flag stack
containing a character whose alias resolves to `name`. -/
def touchesName (fs : List (Str × Flag)) (name : Str) (t : Tok) : Bool :=
  if isPref (str "--") t then (splitFirstEq (t.drop 2)).1 == name
  else if isPref (str "-") t then
    (t.drop 1).any (fun c => lookupAssoc (buildShortMap fs) [c] == some name)
  else false

lemma scanTokens_untouched (d : Bool) (fs : List (Str × Flag)) (name : Str) :
    ∀ (N : Nat) (st : ScanState) (args : List Tok) (st' : ScanState), args.length ≤ N →
      (∀ t ∈ args, touchesName fs name t = false) →
      scanTokens d fs st args = .ok st' →
      lookupAssoc st'.resultFlags name = lookupAssoc st.resultFlags name := by
  intro N
  induction N with
  | zero =>
    intro st args st' hlen _ h
    have ha : args = [] := List.length_eq_zero.mp (Nat.le_zero.mp hlen)
    subst ha
    cases h
    rfl
  | succ N ih =>
    intro st args st' hlen hall h
    cases args with
    | nil =>
      cases h
      rfl
    | cons a rest =>
      have hr : rest.length ≤ N := by
        simp only [List.length_cons] at hlen
        omega
      have hhead := hall a (List.mem_cons_self _ _)
      have htail : ∀ t ∈ rest, touchesName fs name t = false :=
        fun t htm => hall t (List.mem_cons_of_mem _ htm)
      simp only [scanTokens] at h
      split at h
      · rename_i hpp
        have hne : (splitFirstEq (List.drop 2 a)).1 ≠ name := by
          simp only [touchesName, hpp, if_true] at hhead
          exact fun he => by simp [he] at hhead
        split at h
        · exact ih st rest st' hr htail h
        · split at h
          · cases h
          · rw [ih _ rest st' hr htail h]
            simp [setFlag, lookupAssoc_setAssoc, hne]
          · split at h
            · split at h
              · cases h
              · rw [ih _ rest st' hr htail h]
                simp [recordValue, lookupAssoc_setAssoc, hne]
            · split at h
              · cases h
              · split at h
                · cases h
                · split at h
                  · cases h
                  · rename_i v rest2 hv hfail
                    have hr2 : rest2.length ≤ N := by
                      simp only [List.length_cons] at hr ⊢
                      omega
                    have htail2 : ∀ t ∈ rest2, touchesName fs name t = false :=
                      fun t htm => htail t (List.mem_cons_of_mem _ htm)
                    rw [ih _ rest2 st' hr2 htail2 h]
                    simp [recordValue, lookupAssoc_setAssoc, hne]
      · split at h
        · rename_i hpp hps
          have hcs : ∀ c ∈ List.drop 1 a, ¬ lookupAssoc (buildShortMap fs) [c] = some name := by
            have hh : ((List.drop 1 a).any fun c => lookupAssoc (buildShortMap fs) [c] == some name) = false := by
              simpa [touchesName, hpp, hps] using hhead
            intro c hc hsome
            have h3 := List.any_eq_false.mp hh c hc
            simp [hsome] at h3
          split at h
          · cases h
          · rename_i st2 hshort
            rw [ih st2 rest st' hr htail h]
            exact scanShorts_untouched d fs _ st st2 name hcs hshort
        · exact ih (pushArg a st) rest st' hr htail h

lemma isNone_setAssoc (p1 n : Str) (v : FlagVal) (rf : List (Str × FlagVal)) :
    (lookupAssoc (setAssoc p1 v rf) n).isNone = (!(n == p1) && (lookupAssoc rf n).isNone) := by
  by_cases hp : p1 = n
  · subst hp
    simp [lookupAssoc_setAssoc]
  · have hnp : (n == p1) = false := by
      simp only [beq_eq_false_iff_ne, ne_eq]
      exact fun h => hp h.symm
    simp [lookupAssoc_setAssoc, hp, hnp]

lemma scanTokens_required_inv (d : Bool) (fs : List (Str × Flag)) (hnd : keysNodup fs) :
    ∀ (N : Nat) (st : ScanState) (args : List Tok) (st' : ScanState), args.length ≤ N →
      scanTokens d fs st args = .ok st' →
      st.requiredLeft = (requiredNames fs).filter (fun n => (lookupAssoc st.resultFlags n).isNone) →
      st'.requiredLeft = (requiredNames fs).filter (fun n => (lookupAssoc st'.resultFlags n).isNone) := by
  intro N
  induction N with
  | zero =>
    intro st args st' hlen h hInv
    have ha : args = [] := List.length_eq_zero.mp (Nat.le_zero.mp hlen)
    subst ha
    cases h
    exact hInv
  | succ N ih =>
    intro st args st' hlen h hInv
    cases args with
    | nil =>
      cases h
      exact hInv
    | cons a rest =>
      have hr : rest.length ≤ N := by
        simp only [List.length_cons] at hlen
        omega
      simp only [scanTokens] at h
      split at h
      · split at h
        · exact ih st rest st' hr h hInv
        · split at h
          · cases h
          · rename_i d2 s2 heqb
            refine ih _ rest st' hr h ?_
            show st.requiredLeft = _
            rw [hInv]
            refine List.filter_congr ?_
            intro n hn
            obtain ⟨dd, oo, hvn⟩ := requiredNames_lookup hnd hn
            have hne : (splitFirstEq (List.drop 2 a)).1 ≠ n := by
              intro he
              rw [he, hvn] at heqb
              cases heqb
            show ((lookupAssoc st.resultFlags n).isNone) =
              ((lookupAssoc (setAssoc (splitFirstEq (List.drop 2 a)).1 (FlagVal.boolVal true) st.resultFlags) n).isNone)
            simp [lookupAssoc_setAssoc, hne]
          · split at h
            · split at h
              · cases h
              · refine ih _ rest st' hr h ?_
                show st.requiredLeft.filter _ = _
                rw [hInv, List.filter_filter]
                refine List.filter_congr ?_
                intro n hn
                simp only [recordValue]
                rw [isNone_setAssoc]
            · split at h
              · cases h
              · split at h
                · cases h
                · split at h
                  · cases h
                  · rename_i v rest2 hv hfail
                    have hr2 : rest2.length ≤ N := by
                      simp only [List.length_cons] at hr ⊢
                      omega
                    refine ih _ rest2 st' hr2 h ?_
                    show st.requiredLeft.filter _ = _
                    rw [hInv, List.filter_filter]
                    refine List.filter_congr ?_
                    intro n hn
                    simp only [recordValue]
                    rw [isNone_setAssoc]
      · split at h
        · split at h
          · cases h
          · rename_i st2 hshort
            refine ih st2 rest st' hr h ?_
            rw [(scanShorts_state d fs _ st st2 hshort).1, hInv]
            refine List.filter_congr ?_
            intro n hn
            obtain ⟨dd, oo, hvn⟩ := requiredNames_lookup hnd hn
            rw [scanShorts_lookup_preserved d fs hnd _ st st2 n dd true oo hvn hshort]
        · exact ih (pushArg a st) rest st' hr h hInv

/-- Concrete fixture: a command with two required value flags. -/
def reqCmd : Exe :=
  ⟨str "Req command", false, none,
   some [(str "alpha", .value (str "A") true none),
         (str "beta", .value (str "B") true none)], none⟩

/-- C6: after a successful scan the still-missing working set is exactly the
declared required value flags with no recorded value, in declaration order;
a non-empty set aborts with the comma-joined listing message and an empty set
proceeds to the arity check with no such error. -/
theorem c6_missing_required (cmd : Exe) (args : List Tok) (st : ScanState)
    (hnd : keysNodup (cmd.flags.getD []))
    (hscan : scanTokens cmd.dangerous (cmd.flags.getD []) (initState (cmd.flags.getD [])) args = .ok st) :
    st.requiredLeft = (requiredNames (cmd.flags.getD [])).filter
      (fun n => (lookupAssoc st.resultFlags n).isNone)
  ∧ (st.requiredLeft ≠ [] → parseArgs cmd args = .error (missingRequiredMsg st.requiredLeft))
  ∧ (st.requiredLeft = [] → parseArgs cmd args =
      (if (validLengths cmd.arguments).any (· == st.resultArgs.length) then
        .ok (st.resultArgs, st.resultFlags)
      else .error (invalidCountMsg st.resultArgs.length)))
  ∧ missingRequiredMsg [str "alpha", str "beta"] = str "Missing required flags: alpha,beta" := by
  have hInit : (initState (cmd.flags.getD [])).requiredLeft =
      (requiredNames (cmd.flags.getD [])).filter
        (fun n => (lookupAssoc (initState (cmd.flags.getD [])).resultFlags n).isNone) := by
    show requiredNames _ = _
    symm
    refine List.filter_eq_self.mpr ?_
    intro n hn
    obtain ⟨dd, oo, hvn⟩ := requiredNames_lookup hnd hn
    show (lookupAssoc (initFlags _) n).isNone = true
    rw [initFlags_lookup hnd, hvn]
    rfl
  have h1 := scanTokens_required_inv cmd.dangerous _ hnd args.length
    (initState (cmd.flags.getD [])) args st le_rfl hscan hInit
  refine ⟨h1, ?_, ?_, by decide⟩
  · intro hne
    simp [parseArgs, hscan, hne]
  · intro he
    simp [parseArgs, hscan, he]

/-- C6 witness: omitting both required flags aborts listing them both, in
declaration order. -/
theorem c6_missing_required_witness :
    parseArgs reqCmd [] = .error (missingRequiredMsg [str "alpha", str "beta"]) := by
  have h := (c6_missing_required reqCmd [] (initState (reqCmd.flags.getD []))
    (by decide) (by rfl)).2.1 (by decide)
  exact h

/-- C4 (amended): a declared boolean flag defaults to `false` when no token
can touch it; a bare `--name` token scanned in flag position sets it to true;
a single-dash token scanned in flag position is processed as a stack, and any
contained character whose alias resolves to the flag sets it to true
regardless of its position in the stack — except that the character `f` is
ignored on dangerous commands; once true, later tokens keep it true. -/
theorem c4_boolean_flags :
    (∀ (d : Bool) (fs : List (Str × Flag)) (name ddesc : Str) (ss : Option Str)
        (args : List Tok) (st' : ScanState),
      keysNodup fs → lookupAssoc fs name = some (.boolean ddesc ss) →
      (∀ t ∈ args, touchesName fs name t = false) →
      scanTokens d fs (initState fs) args = .ok st' →
      lookupAssoc st'.resultFlags name = some (.boolVal false))
  ∧ (∀ (d : Bool) (fs : List (Str × Flag)) (st : ScanState) (name ddesc : Str)
        (ss : Option Str) (rest : List Tok),
      lookupAssoc fs name = some (.boolean ddesc ss) → '=' ∉ name →
      ¬(name = str "force" ∧ d = true) →
      scanTokens d fs st ((str "--" ++ name) :: rest) =
        scanTokens d fs (setFlag name (.boolVal true) st) rest)
  ∧ (∀ (d : Bool) (fs : List (Str × Flag)) (st : ScanState) (g : Str) (rest : List Tok),
      isPref (str "--") ('-' :: g) = false →
      scanTokens d fs st (('-' :: g) :: rest) =
        (match scanShorts d fs g st with
         | .error e => .error e
         | .ok st2 => scanTokens d fs st2 rest))
  ∧ (∀ (d : Bool) (fs : List (Str × Flag)) (g : Str) (st st' : ScanState) (c : Char) (name : Str),
      scanShorts d fs g st = .ok st' → c ∈ g → ¬(c = 'f' ∧ d = true) →
      lookupAssoc (buildShortMap fs) [c] = some name →
      lookupAssoc st'.resultFlags name = some (.boolVal true))
  ∧ (∀ (d : Bool) (fs : List (Str × Flag)) (st : ScanState) (args : List Tok) (st' : ScanState)
        (name ddesc : Str) (ss : Option Str),
      lookupAssoc fs name = some (.boolean ddesc ss) →
      scanTokens d fs st args = .ok st' →
      lookupAssoc st.resultFlags name = some (.boolVal true) →
      lookupAssoc st'.resultFlags name = some (.boolVal true)) := by
  refine ⟨?_, ?_, ?_, ?_, ?_⟩
  · intro d fs name ddesc ss args st' hnd hb hall hscan
    rw [scanTokens_untouched d fs name args.length (initState fs) args st' le_rfl hall hscan]
    show lookupAssoc (initFlags fs) name = _
    rw [initFlags_lookup hnd, hb]
  · intro d fs st name ddesc ss rest hb heq hforce
    have h1 : isPref (str "--") (str "--" ++ name) = true := isPref_append _ _
    have h2 : (str "--" ++ name).drop 2 = name := rfl
    simp only [scanTokens, h1, if_true, h2, splitFirstEq_no_eq heq]
    rw [if_neg hforce]
    simp only [hb]
  · intro d fs st g rest hpp
    have hps : isPref (str "-") ('-' :: g) = true := by simp [isPref]
    simp only [scanTokens, hpp, hps]
    rfl
  · intro d fs g st st' c name hshort hc hcf hmap
    exact scanShorts_sets d fs g st st' c name hshort hc hcf hmap
  · intro d fs st args st' name ddesc ss hb hscan ht
    exact scanTokens_true_preserved d fs name ddesc ss hb args.length st args st' le_rfl hscan ht

/-- C4 counterexample: on a dangerous command the short alias `f` never sets
its boolean flag — `-f` is consumed as a force override and the resolved
value of `fast` stays `false` although the token contains the alias. -/
theorem c4_counterexample :
    dangerCmd.dangerous = true
  ∧ parseArgs dangerCmd [str "-f"] = .ok ([], [(str "fast", .boolVal false)]) :=
  ⟨rfl, by decide⟩

/-- C4 witness: a bare long token sets a concrete boolean flag. -/
theorem c4_boolean_flags_witness :
    scanTokens false [(str "verbose", .boolean (str "V") (some (str "v")))]
      (initState [(str "verbose", .boolean (str "V") (some (str "v")))])
      ((str "--" ++ str "verbose") :: []) =
      scanTokens false [(str "verbose", .boolean (str "V") (some (str "v")))]
        (setFlag (str "verbose") (.boolVal true)
          (initState [(str "verbose", .boolean (str "V") (some (str "v")))])) [] :=
  c4_boolean_flags.2.1 false [(str "verbose", .boolean (str "V") (some (str "v")))]
    (initState [(str "verbose", .boolean (str "V") (some (str "v")))])
    (str "verbose") (str "V") (some (str "v")) [] (by rfl) (by decide) (by decide)

/-- C9: the help report is the optional header block (`Help for {kind}
"{path}":` plus a blank line, present exactly when the path is non-empty and
omitted entirely otherwise) prepended to the path-independent body; the body
starts with `Description:` followed by the node's literal description; and a
group's `Subcommands:` table has exactly one row per child, in declaration
order, each row rendering that child's name, kind and description with shared
column widths. -/
theorem c9_help_layout :
    (∀ (cmd : Command) (path : List Str),
      logHelpLines cmd path =
        (if path = [] then ([] : List Str)
         else [str "Help for " ++ commandType cmd ++ str " \"" ++
                List.intercalate (str "/") path ++ str "\":", []]) ++ logHelpLines cmd [])
  ∧ (∀ cmd : Command, (logHelpLines cmd []).take 2 = [str "Description:", descriptionOf cmd])
  ∧ (∀ (gd : Str) (children : List (Str × Command)),
      logHelpLines (.group gd children) [] =
        [str "Description:", gd] ++ (str "\nSubcommands:\n" :: subcommandRows children))
  ∧ (∀ children : List (Str × Command), (subcommandRows children).length = children.length)
  ∧ (∀ children : List (Str × Command), ∃ w0 w1, subcommandRows children =
      children.map (fun nc =>
        '\t' :: (padEnd nc.1 w0 ++ str " | " ++ padEnd (commandType nc.2) w1 ++
          str ": " ++ descriptionOf nc.2)))
  ∧ logHelp = fun cmd path => List.intercalate (str "\n") (logHelpLines cmd path) := by
  refine ⟨?_, ?_, ?_, ?_, ?_, rfl⟩
  · intro cmd path
    cases cmd <;> by_cases hp : path = [] <;>
      simp [logHelpLines, hp, descriptionOf, commandType]
  · intro cmd
    cases cmd <;> simp [logHelpLines, descriptionOf]
  · intro gd children
    simp [logHelpLines, descriptionOf]
  · intro children
    simp [subcommandRows, buildTable3]
  · intro children
    refine ⟨maxLen ((children.map (fun nc => (nc.1, commandType nc.2, descriptionOf nc.2))).map (·.1)),
      maxLen ((children.map (fun nc => (nc.1, commandType nc.2, descriptionOf nc.2))).map (·.2.1)), ?_⟩
    simp only [subcommandRows, buildTable3, List.map_map]
    rfl

end Cli
